import Mathlib

/-!
Shallow embedding of the drug-repurposing notebook pipeline
(`src/drug-repurposing.ipynb`).

Tables are lists of typed rows; pandas nulls (NaN) are `Option.none`;
numeric cells are exact rationals. External black boxes (the RDKit
canonicalizer and SMILES parser) are modelled as function parameters of
type `String → Option _` where `none` models the library returning a
failure value. Python exceptions are modelled with `Except PyError`.
-/

/-- Python exceptions relevant to the claims. -/
inductive PyError where
  | keyError
  | molIsNone
deriving DecidableEq, Repr

/-! ## Bioactivity Fetcher (`get_target_activity`)

A remote ChEMBL activity record; `standard_value` is the value after the
JSON decode, either numeric or null (`pd.to_numeric` keeps nulls as NaN). -/

structure ChemblActivity where
  target_chembl_id : String
  standard_type : String
  relation : String
  standard_units : String
  molecule_chembl_id : String
  standard_value : Option ℚ
deriving DecidableEq, Repr

/-- A row of the frame returned by `get_target_activity`:
the two projected columns `molecule_chembl_id` and `standard_value`. -/
structure ActivityRow where
  molecule_chembl_id : String
  standard_value : Option ℚ
deriving DecidableEq, Repr

/-- The remote query `activity.filter(target_chembl_id=..., standard_type="IC50",
relation="=", standard_units="nM")`, over a model `db` of the remote store. -/
def activityFilter (db : List ChemblActivity) (chembl_id : String) :
    List ChemblActivity :=
  db.filter (fun r =>
    r.target_chembl_id == chembl_id && r.standard_type == "IC50" &&
      r.relation == "=" && r.standard_units == "nM")

/-- Model of the `.only("molecule_chembl_id", "standard_value")` record
projection. -/
def onlyFields (r : ChemblActivity) : ActivityRow :=
  ⟨r.molecule_chembl_id, r.standard_value⟩

/-- Columns of `pd.DataFrame(list_of_records)`: the union of the records
field names, in order of first appearance. Each record projected by
`onlyFields` carries exactly the two keys below; a frame built from an
empty record list has no columns at all. -/
def frameColumns (recs : List ActivityRow) : List String :=
  match recs with
  | [] => []
  | _ :: _ => ["molecule_chembl_id", "standard_value"]

/-- Model of `get_target_activity`: filter the remote store, materialize
`activities[:100]`, build a frame from the record list, and select the
two columns (`KeyError` when a selected column is absent, as happens for
an empty record list). `pd.to_numeric` is the identity here because the
model already stores numeric-or-null values. -/
def get_target_activity (db : List ChemblActivity) (chembl_id : String) :
    Except PyError (List ActivityRow) :=
  let activities := activityFilter db chembl_id
  let recs := (activities.take 100).map onlyFields
  let cols := frameColumns recs
  if "molecule_chembl_id" ∈ cols ∧ "standard_value" ∈ cols then
    Except.ok recs
  else
    Except.error PyError.keyError

/-! ## Training-Set Builder (`create_training_data`) -/

/-- A row of the molecule frame returned by `get_molecule_data`;
`canonical_smiles` is null when the compound has no resolvable structure. -/
structure MoleculeRow where
  molecule_chembl_id : String
  canonical_smiles : Option String
deriving DecidableEq, Repr

/-- A row of the merged frame, before null dropping. -/
structure MergedRow where
  molecule_chembl_id : String
  standard_value : Option ℚ
  canonical_smiles : Option String
deriving DecidableEq, Repr

/-- A row after `.dropna(how="any")`: all three columns non-null. -/
structure JoinedRow where
  molecule_chembl_id : String
  standard_value : ℚ
  canonical_smiles : String
deriving DecidableEq, Repr

/-- A row after `.drop(columns="molecule_chembl_id")`. -/
structure DataRow where
  standard_value : ℚ
  canonical_smiles : String
deriving DecidableEq, Repr

/-- A row of the grouped frame `groupby("canonical_smiles").agg("mean")`. -/
structure GroupedRow where
  canonical_smiles : String
  standard_value : ℚ
deriving DecidableEq, Repr

/-- A row of the returned training frame, after the binary `activity`
column is added and `standard_value` is dropped: exactly the two columns
`canonical_smiles` and `activity` remain. -/
structure TrainingRow where
  canonical_smiles : String
  activity : ℤ
deriving DecidableEq, Repr

/-- Model of `pd.merge(left=activity_data, right=molecule_data,
on="molecule_chembl_id", how="left")`: every activity row is kept; it is
paired with each molecule row sharing its key, or null-extended when no
molecule row matches. -/
def mergeLeft (acts : List ActivityRow) (mols : List MoleculeRow) :
    List MergedRow :=
  acts.flatMap (fun a =>
    let hits := mols.filter (fun m => m.molecule_chembl_id == a.molecule_chembl_id)
    if hits.isEmpty then
      [⟨a.molecule_chembl_id, a.standard_value, none⟩]
    else
      hits.map (fun m => ⟨a.molecule_chembl_id, a.standard_value, m.canonical_smiles⟩))

/-- Model of `.dropna(how="any")`: keep the rows with no null in any
column. -/
def dropnaRows (l : List MergedRow) : List JoinedRow :=
  l.filterMap (fun r =>
    match r.standard_value, r.canonical_smiles with
    | some v, some s => some ⟨r.molecule_chembl_id, v, s⟩
    | _, _ => none)

/-- The joined-and-null-dropped table, before the identifier column is
dropped and before deduplication by structure string. -/
def joinedRows (acts : List ActivityRow) (mols : List MoleculeRow) :
    List JoinedRow :=
  dropnaRows (mergeLeft acts mols)

/-- Model of `.drop(columns="molecule_chembl_id")`. -/
def dataRows (acts : List ActivityRow) (mols : List MoleculeRow) :
    List DataRow :=
  (joinedRows acts mols).map (fun r => ⟨r.standard_value, r.canonical_smiles⟩)

/-- Drop every later duplicate of a key already seen, keeping the first
occurrence (the semantics of `drop_duplicates(keep="first")` and of the
distinct group keys of a `groupby`). `seen` accumulates the keys kept so
far. -/
def dropLaterDups {α : Type} (key : α → String) :
    List String → List α → List α
  | _, [] => []
  | seen, x :: xs =>
    if key x ∈ seen then dropLaterDups key seen xs
    else x :: dropLaterDups key (key x :: seen) xs

/-- The group keys of `groupby("canonical_smiles")`: the distinct
structure strings. pandas emits the groups in sorted key order; the model
keeps first-occurrence order instead, which no claim observes (all
claims about the grouped table are order-independent). -/
def groupKeys (rows : List DataRow) : List String :=
  dropLaterDups (fun s => s) [] (rows.map (fun r => r.canonical_smiles))

/-- The rows of one `canonical_smiles` group. -/
def groupOf (rows : List DataRow) (k : String) : List DataRow :=
  rows.filter (fun r => r.canonical_smiles == k)

/-- Model of `agg("mean")` on one group: the mean of the raw potency values of all
joined rows sharing the structure string `k`. -/
def meanPotency (rows : List DataRow) (k : String) : ℚ :=
  ((groupOf rows k).map (fun r => r.standard_value)).sum / (groupOf rows k).length

/-- Model of `groupby("canonical_smiles", as_index=False).agg("mean")`. -/
def groupbyMean (rows : List DataRow) : List GroupedRow :=
  (groupKeys rows).map (fun k => ⟨k, meanPotency rows k⟩)

/-- Model of `create_training_data`: left-merge, drop nulls, drop the
identifier column, group by structure string averaging the potency, then
derive `activity = (standard_value < nm_cutoff).astype(int)`.  Before
returning, the code computes and prints the class balance (see
`positivePercentage`); that computation never raises, even on an empty
table, so the function always returns its frame, which keeps only the
`canonical_smiles` and `activity` columns (`standard_value` is dropped). -/
def create_training_data (acts : List ActivityRow) (mols : List MoleculeRow)
    (nm_cutoff : ℚ) : List TrainingRow :=
  (groupbyMean (dataRows acts mols)).map
    (fun g => ⟨g.canonical_smiles,
      if g.standard_value < nm_cutoff then (1 : ℤ) else 0⟩)

/-- Model of `percentage = 100 * actives / len(training_data)` as printed
by `create_training_data`. `actives` is the pandas `Series.sum()` of the
label column, a numpy `int64` scalar, so when the table is empty the
division by zero follows numpy scalar semantics: it emits a
RuntimeWarning and evaluates to nan — it does not raise
ZeroDivisionError. Rationals have no nan, so the total division of ℚ
(zero at a zero divisor) stands in for it; the value is only printed,
never returned. -/
def positivePercentage (training : List TrainingRow) : ℚ :=
  100 * (training.map (fun t => (t.activity : ℚ))).sum / training.length

/-- The group of joined (null-dropped, identifier still present) rows
sharing the structure string `k`. -/
def joinedGroup (acts : List ActivityRow) (mols : List MoleculeRow)
    (k : String) : List JoinedRow :=
  (joinedRows acts mols).filter (fun r => r.canonical_smiles == k)

/-- The mean of the raw potency values of all joined activity rows
sharing the structure string `k`. -/
def joinedMean (acts : List ActivityRow) (mols : List MoleculeRow)
    (k : String) : ℚ :=
  ((joinedGroup acts mols k).map (fun r => r.standard_value)).sum /
    (joinedGroup acts mols k).length

/-! ## Reference Library Loader (`download_drug_repurposing_hub`)

RDKit is an external black box: `parse` models `Chem.MolFromSmiles`
(returning `none` where the library returns Python `None` on an invalid
string) and `toSmiles` models `Chem.MolToSmiles(mol, canonical=True)`. -/

/-- An opaque parsed molecular-structure object (RDKit `Mol`). -/
structure Mol where
  molId : String
deriving DecidableEq, Repr

/-- Model of `canon_smiles`: parse the SMILES string; on failure return the
missing value, otherwise write the molecule back out canonically. -/
def canon_smiles (parse : String → Option Mol) (toSmiles : Mol → String)
    (smiles : String) : Option String :=
  match parse smiles with
  | none => none
  | some mol => some (toSmiles mol)

/-- A row of the Drug Repurposing Hub table: the `smiles` column plus the
remaining metadata columns, opaque and passed through untouched. -/
structure HubRow where
  smiles : String
  meta : String
deriving DecidableEq, Repr

/-- The downloaded raw table after
`df["smiles"] = df["smiles"].apply(canon_smiles)` and
`dropna(subset=["smiles"])`: the canonicalized rows whose canonical
structure is not missing. -/
def hubNonMissing (parse : String → Option Mol) (toSmiles : Mol → String)
    (raw : List HubRow) : List HubRow :=
  (raw.map (fun r => (canon_smiles parse toSmiles r.smiles, r.meta))).filterMap
    (fun p => p.1.map (fun s => HubRow.mk s p.2))

/-- The processing applied to the downloaded raw table: canonicalize the
`smiles` column, drop the rows whose canonical structure is missing, then
`drop_duplicates(subset=["smiles"], keep="first")`. -/
def processHub (parse : String → Option Mol) (toSmiles : Mol → String)
    (raw : List HubRow) : List HubRow :=
  dropLaterDups (fun r => r.smiles) [] (hubNonMissing parse toSmiles raw)

/-- The observable state of `download_drug_repurposing_hub`: the content
of `data/drug_repurposing_hub.csv` when that file exists, and a counter
of network accesses performed so far. -/
structure FsState where
  hubFile : Option (List HubRow)
  networkCalls : ℕ
deriving DecidableEq, Repr

/-- Model of `download_drug_repurposing_hub`: if the local file already exists the
function returns immediately (no network access, file untouched);
otherwise it downloads the remote table, processes it, and writes the
result to the local file. -/
def download_drug_repurposing_hub (parse : String → Option Mol)
    (toSmiles : Mol → String) (remote : List HubRow) (s : FsState) : FsState :=
  match s.hubFile with
  | some _ => s
  | none =>
    { hubFile := some (processHub parse toSmiles remote)
      networkCalls := s.networkCalls + 1 }

/-! ## Result Visualizer (`visualize_top_predictions`) -/

/-- A row of the predictions CSV: a SMILES string and its score (the
`activity` column written by the external predictor). -/
structure PredRow where
  smiles : String
  activity : ℚ
deriving DecidableEq, Repr

/-- The rendered grid returned by `Draw.MolsToGridImage`: the parsed
molecules, their legend strings, and the `molsPerRow` setting. -/
structure GridImage where
  mols : List Mol
  legends : List String
  molsPerRow : ℕ
deriving DecidableEq, Repr

/-- Model of the Python format of the score to two decimal places used
for the legends. The model rounds the exact rational to the nearest
hundredth (Python formats an IEEE double; binary-float tie behaviour is
out of scope). -/
def fmt2 (q : ℚ) : String :=
  let c : ℤ := round (q * 100)
  let n := c.natAbs
  let frac := n % 100
  (if c < 0 then "-" else "") ++ Nat.repr (n / 100) ++ "." ++
    (if frac < 10 then "0" else "") ++ Nat.repr frac

/-- Model of `sort_values("activity", ascending=False)`: sort by score,
descending. -/
def sortByScoreDesc (preds : List PredRow) : List PredRow :=
  preds.insertionSort (fun a b => b.activity ≤ a.activity)

instance : DecidableRel (fun a b : PredRow => b.activity ≤ a.activity) :=
  fun a b => inferInstanceAs (Decidable (b.activity ≤ a.activity))

instance : IsTotal PredRow (fun a b => b.activity ≤ a.activity) :=
  ⟨fun a b => le_total b.activity a.activity⟩

instance : IsTrans PredRow (fun a b => b.activity ≤ a.activity) :=
  ⟨fun _ _ _ hab hbc => le_trans hbc hab⟩

/-- Model of the list comprehension parsing each selected SMILES string
with `Chem.MolFromSmiles`, as consumed by `Draw.MolsToGridImage`, which
raises when any list entry is `None`: all strings must parse for a grid
to be produced. -/
def parseAll (parse : String → Option Mol) : List PredRow → Option (List Mol)
  | [] => some []
  | r :: rs =>
    match parse r.smiles with
    | none => none
    | some m =>
      match parseAll parse rs with
      | none => none
      | some ms => some (m :: ms)

/-- The rows selected for display: sort descending by score, `head(9)`. -/
def topRows (preds : List PredRow) : List PredRow :=
  (sortByScoreDesc preds).take 9

/-- Model of `visualize_top_predictions`: load the predictions, sort descending by
score, take the top 9, parse each SMILES string, and render a 3-column
grid with the two-decimal score as each legend. An unparsable selected
string is an unhandled error. -/
def visualize_top_predictions (parse : String → Option Mol)
    (preds : List PredRow) : Except PyError GridImage :=
  match parseAll parse (topRows preds) with
  | none => Except.error PyError.molIsNone
  | some ms =>
    Except.ok ⟨ms, (topRows preds).map (fun r => fmt2 r.activity), 3⟩

/-! ## Helper lemmas -/

theorem dropLaterDups_spec {α : Type} (key : α → String) :
    ∀ (l : List α) (seen : List String) (r : α), r ∈ dropLaterDups key seen l →
      key r ∉ seen ∧ (l.filter (fun x => key x == key r)).head? = some r := by
  intro l
  induction l with
  | nil => intro seen r hr; simp [dropLaterDups] at hr
  | cons x xs ih =>
    intro seen r hr
    simp only [dropLaterDups] at hr
    by_cases hx : key x ∈ seen
    · rw [if_pos hx] at hr
      obtain ⟨hns, hhead⟩ := ih seen r hr
      refine ⟨hns, ?_⟩
      have hne : (key x == key r) = false := by
        simp only [beq_eq_false_iff_ne]
        intro he
        exact hns (he ▸ hx)
      simp [List.filter_cons, hne, hhead]
    · rw [if_neg hx] at hr
      rcases List.mem_cons.mp hr with hr | hr
      · subst hr
        refine ⟨hx, ?_⟩
        simp [List.filter_cons]
      · obtain ⟨hns, hhead⟩ := ih (key x :: seen) r hr
        have hne : key r ≠ key x := by
          intro he
          exact hns (by simp [he])
        refine ⟨fun h => hns (by simp [h]), ?_⟩
        have hne2 : (key x == key r) = false := by
          simp only [beq_eq_false_iff_ne]
          exact fun h => hne h.symm
        simp [List.filter_cons, hne2, hhead]

theorem dropLaterDups_nodup {α : Type} (key : α → String) :
    ∀ (l : List α) (seen : List String),
      ((dropLaterDups key seen l).map key).Nodup := by
  intro l
  induction l with
  | nil => intro seen; simp [dropLaterDups]
  | cons x xs ih =>
    intro seen
    simp only [dropLaterDups]
    by_cases hx : key x ∈ seen
    · rw [if_pos hx]; exact ih seen
    · rw [if_neg hx]
      simp only [List.map_cons, List.nodup_cons]
      refine ⟨?_, ih (key x :: seen)⟩
      intro hmem
      obtain ⟨r, hr, hkr⟩ := List.mem_map.mp hmem
      exact (dropLaterDups_spec key xs (key x :: seen) r hr).1 (by simp [hkr])

theorem dropLaterDups_mem_map_key {α : Type} (key : α → String) :
    ∀ (l : List α) (seen : List String) (b : String),
      b ∈ (dropLaterDups key seen l).map key ↔ b ∈ l.map key ∧ b ∉ seen := by
  intro l
  induction l with
  | nil => intro seen b; simp [dropLaterDups]
  | cons x xs ih =>
    intro seen b
    simp only [dropLaterDups]
    by_cases hx : key x ∈ seen
    · rw [if_pos hx, ih seen b]
      simp only [List.map_cons, List.mem_cons]
      constructor
      · rintro ⟨hb, hns⟩
        exact ⟨Or.inr hb, hns⟩
      · rintro ⟨hb | hb, hns⟩
        · exact absurd (hb ▸ hx) hns
        · exact ⟨hb, hns⟩
    · rw [if_neg hx]
      simp only [List.map_cons, List.mem_cons, ih (key x :: seen) b,
        List.mem_cons]
      constructor
      · rintro (hb | ⟨hb, hns⟩)
        · exact ⟨Or.inl hb, hb ▸ hx⟩
        · exact ⟨Or.inr hb, fun h => hns (Or.inr h)⟩
      · rintro ⟨hb | hb, hns⟩
        · exact Or.inl hb
        · rcases eq_or_ne b (key x) with he | he
          · exact Or.inl he
          · exact Or.inr ⟨hb, fun h => h.elim he hns⟩

theorem dropLaterDups_eq_nil_iff {α : Type} (key : α → String) (l : List α) :
    dropLaterDups key [] l = [] ↔ l = [] := by
  cases l with
  | nil => simp [dropLaterDups]
  | cons x xs => simp [dropLaterDups]

theorem groupKeys_nodup (rows : List DataRow) : (groupKeys rows).Nodup := by
  have h := dropLaterDups_nodup (fun s : String => s)
    (rows.map (fun r => r.canonical_smiles)) []
  simpa [groupKeys] using h

theorem groupKeys_mem (rows : List DataRow) (b : String) :
    b ∈ groupKeys rows ↔ b ∈ rows.map (fun r => r.canonical_smiles) := by
  have h := dropLaterDups_mem_map_key (fun s : String => s)
    (rows.map (fun r => r.canonical_smiles)) [] b
  simpa [groupKeys] using h

theorem create_training_data_eq (acts : List ActivityRow)
    (mols : List MoleculeRow) (nm_cutoff : ℚ) :
    create_training_data acts mols nm_cutoff =
      (groupKeys (dataRows acts mols)).map
        (fun k => ⟨k, if meanPotency (dataRows acts mols) k < nm_cutoff
          then 1 else 0⟩) := by
  simp [create_training_data, groupbyMean, List.map_map]

theorem joinedMean_eq_meanPotency (acts : List ActivityRow)
    (mols : List MoleculeRow) (k : String) :
    joinedMean acts mols k = meanPotency (dataRows acts mols) k := by
  have hg : groupOf (dataRows acts mols) k =
      (joinedGroup acts mols k).map (fun r => ⟨r.standard_value, r.canonical_smiles⟩) := by
    simp [groupOf, dataRows, joinedGroup, List.filter_map, Function.comp_def]
  simp [joinedMean, meanPotency, hg, List.map_map, Function.comp_def]

theorem groupKeys_dataRows_eq_nil_iff (acts : List ActivityRow)
    (mols : List MoleculeRow) :
    groupKeys (dataRows acts mols) = [] ↔ joinedRows acts mols = [] := by
  rw [groupKeys, dropLaterDups_eq_nil_iff]
  simp [dataRows]

/-- Sample tables used to instantiate the claim theorems: the compound
`m1` has two activity records (potencies 10 and 30, mean 20), `m2` has
one (potency 100), and `m3` has no structure record. -/
def sampleActs : List ActivityRow :=
  [⟨"m1", some 10⟩, ⟨"m1", some 30⟩, ⟨"m2", some 100⟩, ⟨"m3", some 1⟩]

def sampleMols : List MoleculeRow :=
  [⟨"m1", some "C"⟩, ⟨"m2", some "CC"⟩]

theorem sample_create_training_data :
    create_training_data sampleActs sampleMols 25 =
      [⟨"C", 1⟩, ⟨"CC", 0⟩] := by
  simp +decide [create_training_data, groupbyMean, groupKeys, dataRows,
    joinedRows, dropnaRows, mergeLeft, dropLaterDups, meanPotency, groupOf,
    sampleActs, sampleMols]
  norm_num

/-! ## Claim theorems -/

/-- C1: every row of the table returned by `create_training_data` has
label 1 if the mean of the potency values of all joined activity rows
sharing the structure string of that row is strictly less than the cutoff and
label 0 otherwise; the label column only ever holds 0 or 1. The mean is
taken over the raw potency values of the joined rows
(`joinedMean`), so averaging happens before thresholding, never on
pre-thresholded labels. -/
theorem create_training_data_label_correct (acts : List ActivityRow)
    (mols : List MoleculeRow) (nm_cutoff : ℚ) (t : TrainingRow)
    (ht : t ∈ create_training_data acts mols nm_cutoff) :
    (t.activity = if joinedMean acts mols t.canonical_smiles < nm_cutoff
      then 1 else 0) ∧
    (t.activity = 0 ∨ t.activity = 1) := by
  rw [create_training_data_eq acts mols nm_cutoff] at ht
  obtain ⟨k, hk, rfl⟩ := List.mem_map.mp ht
  refine ⟨by simp [joinedMean_eq_meanPotency], ?_⟩
  by_cases h : meanPotency (dataRows acts mols) k < nm_cutoff <;> simp [h]

theorem create_training_data_label_correct_witness :
    ((⟨"C", 1⟩ : TrainingRow).activity =
      if joinedMean sampleActs sampleMols
          (⟨"C", 1⟩ : TrainingRow).canonical_smiles < 25 then 1 else 0) ∧
    ((⟨"C", 1⟩ : TrainingRow).activity = 0 ∨
      (⟨"C", 1⟩ : TrainingRow).activity = 1) :=
  create_training_data_label_correct sampleActs sampleMols 25 ⟨"C", 1⟩
    (by rw [sample_create_training_data]; simp)

/-- C2: the structure-string column of the table returned by
`create_training_data` contains no duplicate values, and the label of
every row is the non-null integer 0 or 1. The output row type `TrainingRow`
has exactly the two columns `canonical_smiles` and `activity`: the
potency column is dropped by the final `drop(columns="standard_value")`,
embedded in the result shape of `create_training_data`. -/
theorem create_training_data_unique_nonnull (acts : List ActivityRow)
    (mols : List MoleculeRow) (nm_cutoff : ℚ) :
    (((create_training_data acts mols nm_cutoff).map
      (fun t => t.canonical_smiles)).Nodup) ∧
    (∀ t ∈ create_training_data acts mols nm_cutoff,
      t.activity = 0 ∨ t.activity = 1) := by
  rw [create_training_data_eq acts mols nm_cutoff]
  constructor
  · rw [List.map_map]
    simpa [Function.comp_def] using groupKeys_nodup (dataRows acts mols)
  · intro t ht
    obtain ⟨k, hk, rfl⟩ := List.mem_map.mp ht
    by_cases h : meanPotency (dataRows acts mols) k < nm_cutoff <;> simp [h]

theorem create_training_data_unique_nonnull_witness :
    (((create_training_data sampleActs sampleMols 25).map
      (fun t => t.canonical_smiles)).Nodup) ∧
    (∀ t ∈ create_training_data sampleActs sampleMols 25,
      t.activity = 0 ∨ t.activity = 1) :=
  create_training_data_unique_nonnull sampleActs sampleMols 25

/-- C10 counterexample: an activity table whose single compound has no
structure row leaves the cleaned join empty, yet `create_training_data`
returns the empty training table — it does not raise a division-by-zero
error. The divisor of the printed percentage is indeed zero here
(`positivePercentage` meets a zero-length table), but `actives` is a
numpy integer scalar, so the division evaluates to nan with a
RuntimeWarning under numpy semantics instead of raising. -/
theorem create_training_data_empty_no_raise_cex :
    joinedRows [⟨"m1", some 10⟩] [] = [] ∧
    create_training_data [⟨"m1", some 10⟩] [] 25 = [] := by
  constructor <;> rfl

/-- C10 (amended): the positive-class-percentage division
`100 * actives / len(training_data)` is reached with a zero divisor
exactly when the join-and-null-drop result is empty — equivalently,
`create_training_data` returns the empty training set exactly then — but
it does not raise: `actives` is a numpy integer scalar (a pandas
`Series.sum()`), so the zero-divisor division yields nan with a
RuntimeWarning (see `positivePercentage`), and the empty table is
returned. -/
theorem create_training_data_empty_returns_empty (acts : List ActivityRow)
    (mols : List MoleculeRow) (nm_cutoff : ℚ) :
    create_training_data acts mols nm_cutoff = [] ↔
      joinedRows acts mols = [] := by
  rw [create_training_data_eq acts mols nm_cutoff]
  rw [List.map_eq_nil_iff]
  exact groupKeys_dataRows_eq_nil_iff acts mols

theorem joinedRows_id_mem_mols (acts : List ActivityRow)
    (mols : List MoleculeRow) :
    ∀ r ∈ joinedRows acts mols,
      r.molecule_chembl_id ∈ mols.map (fun m => m.molecule_chembl_id) := by
  intro r hr
  simp only [joinedRows, dropnaRows, List.mem_filterMap] at hr
  obtain ⟨mr, hmr, hmatch⟩ := hr
  rcases hsv : mr.standard_value with _ | v
  · rw [hsv] at hmatch; simp at hmatch
  rcases hcs : mr.canonical_smiles with _ | s
  · rw [hsv, hcs] at hmatch; simp at hmatch
  rw [hsv, hcs] at hmatch
  have hrid : r.molecule_chembl_id = mr.molecule_chembl_id := by
    cases hmatch; rfl
  rw [hrid]
  simp only [mergeLeft, List.mem_flatMap] at hmr
  obtain ⟨a, _, hbr⟩ := hmr
  by_cases hemp :
      (mols.filter (fun m => m.molecule_chembl_id == a.molecule_chembl_id)).isEmpty
  · rw [if_pos hemp] at hbr
    simp only [List.mem_singleton] at hbr
    rw [hbr] at hcs
    simp at hcs
  · rw [if_neg hemp] at hbr
    obtain ⟨m, hm, hmr2⟩ := List.mem_map.mp hbr
    have hmmols := List.mem_of_mem_filter hm
    have hmid : m.molecule_chembl_id = a.molecule_chembl_id := by
      simpa using List.of_mem_filter hm
    have : mr.molecule_chembl_id = a.molecule_chembl_id := by
      rw [← hmr2]
    rw [this, ← hmid]
    exact List.mem_map_of_mem _ hmmols

theorem filter_id_length_le_one (mols : List MoleculeRow)
    (hnd : (mols.map (fun m => m.molecule_chembl_id)).Nodup) (k : String) :
    (mols.filter (fun m => m.molecule_chembl_id == k)).length ≤ 1 := by
  induction mols with
  | nil => simp
  | cons m ms ih =>
    simp only [List.map_cons, List.nodup_cons] at hnd
    obtain ⟨hm, hnd2⟩ := hnd
    by_cases hk : m.molecule_chembl_id == k
    · have hstep : List.filter (fun m2 => m2.molecule_chembl_id == k) (m :: ms) =
          m :: List.filter (fun m2 => m2.molecule_chembl_id == k) ms := by
        simp [List.filter_cons, hk]
      rw [hstep]
      have hnil : ms.filter (fun m2 => m2.molecule_chembl_id == k) = [] := by
        rw [List.filter_eq_nil_iff]
        intro m2 hm2 hp
        apply hm
        have h1 : m.molecule_chembl_id = k := by simpa using hk
        have h2 : m2.molecule_chembl_id = k := by simpa using hp
        rw [h1, ← h2]
        exact List.mem_map_of_mem _ hm2
      simp [hnil]
    · have hstep : List.filter (fun m2 => m2.molecule_chembl_id == k) (m :: ms) =
          List.filter (fun m2 => m2.molecule_chembl_id == k) ms := by
        simp [List.filter_cons, hk]
      rw [hstep]
      exact ih hnd2

theorem mergeLeft_length_le (acts : List ActivityRow) (mols : List MoleculeRow)
    (hnd : (mols.map (fun m => m.molecule_chembl_id)).Nodup) :
    (mergeLeft acts mols).length ≤ acts.length := by
  induction acts with
  | nil => simp [mergeLeft]
  | cons a as ih =>
    have hstep : mergeLeft (a :: as) mols =
        (if (mols.filter
            (fun m => m.molecule_chembl_id == a.molecule_chembl_id)).isEmpty then
          [⟨a.molecule_chembl_id, a.standard_value, none⟩]
        else
          (mols.filter (fun m => m.molecule_chembl_id == a.molecule_chembl_id)).map
            (fun m => ⟨a.molecule_chembl_id, a.standard_value, m.canonical_smiles⟩))
          ++ mergeLeft as mols := by
      simp [mergeLeft]
    rw [hstep, List.length_append]
    have h1 : (if (mols.filter
        (fun m => m.molecule_chembl_id == a.molecule_chembl_id)).isEmpty then
          [(⟨a.molecule_chembl_id, a.standard_value, none⟩ : MergedRow)]
        else
          (mols.filter (fun m => m.molecule_chembl_id == a.molecule_chembl_id)).map
            (fun m => ⟨a.molecule_chembl_id, a.standard_value,
              m.canonical_smiles⟩)).length ≤ 1 := by
      split
      · simp
      · simpa [List.length_map] using
          filter_id_length_le_one mols hnd a.molecule_chembl_id
    have h2 := ih
    simp only [List.length_cons]
    omega

/-- C3 counterexample: two activity records for the same compound joined
against a single structure record give a joined null-dropped table of 2
rows, strictly more than min(2, 1) = 1, so the claimed row-count bound
`|joined| ≤ min(|activity|, |structure|)` is false. -/
theorem joined_rows_min_bound_cex :
    ¬ ((joinedRows [⟨"m1", some 5⟩, ⟨"m1", some 7⟩]
          [⟨"m1", some "C"⟩]).length ≤
        min ([⟨"m1", some 5⟩, ⟨"m1", some 7⟩] : List ActivityRow).length
          ([⟨"m1", some "C"⟩] : List MoleculeRow).length) := by
  decide

/-- C3 (amended): no joined training row references a compound identifier
absent from the structure table, and — provided the identifier column of
the structure table has no duplicates, as holds for the tables the molecule
fetcher produces — the number of joined rows remaining after
null-dropping (before deduplication by structure string) is at most the
row count of the activity table. The originally claimed bound
min(activity rows, structure rows) fails when the activity table repeats
an identifier (see the counterexample). -/
theorem joined_rows_join_safety (acts : List ActivityRow)
    (mols : List MoleculeRow) :
    (∀ r ∈ joinedRows acts mols,
      r.molecule_chembl_id ∈ mols.map (fun m => m.molecule_chembl_id)) ∧
    ((mols.map (fun m => m.molecule_chembl_id)).Nodup →
      (joinedRows acts mols).length ≤ acts.length) := by
  refine ⟨joinedRows_id_mem_mols acts mols, fun hnd => ?_⟩
  calc (joinedRows acts mols).length
      ≤ (mergeLeft acts mols).length := List.length_filterMap_le _ _
    _ ≤ acts.length := mergeLeft_length_le acts mols hnd

theorem joined_rows_join_safety_witness :
    ((⟨"m1", 10, "C"⟩ : JoinedRow).molecule_chembl_id ∈
      sampleMols.map (fun m => m.molecule_chembl_id)) ∧
    (joinedRows sampleActs sampleMols).length ≤ sampleActs.length :=
  ⟨(joined_rows_join_safety sampleActs sampleMols).1 ⟨"m1", 10, "C"⟩
      (by decide),
    (joined_rows_join_safety sampleActs sampleMols).2 (by decide)⟩

theorem mem_hubNonMissing (parse : String → Option Mol)
    (toSmiles : Mol → String) (raw : List HubRow) (r : HubRow)
    (hr : r ∈ hubNonMissing parse toSmiles raw) :
    ∃ x ∈ raw, canon_smiles parse toSmiles x.smiles = some r.smiles := by
  simp only [hubNonMissing, List.mem_filterMap, List.mem_map] at hr
  obtain ⟨p, ⟨x, hx, rfl⟩, hp⟩ := hr
  cases hc : canon_smiles parse toSmiles x.smiles with
  | none => rw [hc] at hp; simp at hp
  | some c =>
    rw [hc] at hp
    have hr2 : HubRow.mk c x.meta = r := by simpa using hp
    subst hr2
    exact ⟨x, hx, hc⟩

/-- C4: when the local reference-library file already exists,
`download_drug_repurposing_hub` is a no-op — no network access happens
(the network counter is unchanged) and the file content is untouched,
whatever that content is (existence is the sole short-circuit
condition) — and therefore running the loader twice always equals
running it once. -/
theorem download_hub_idempotent (parse : String → Option Mol)
    (toSmiles : Mol → String) (remote : List HubRow) (s : FsState) :
    (∀ c, s.hubFile = some c →
      download_drug_repurposing_hub parse toSmiles remote s = s) ∧
    download_drug_repurposing_hub parse toSmiles remote
        (download_drug_repurposing_hub parse toSmiles remote s) =
      download_drug_repurposing_hub parse toSmiles remote s := by
  constructor
  · intro c hc
    simp [download_drug_repurposing_hub, hc]
  · cases hs : s.hubFile with
    | some c => simp [download_drug_repurposing_hub, hs]
    | none => simp [download_drug_repurposing_hub, hs]

theorem download_hub_idempotent_witness :
    download_drug_repurposing_hub (fun s => some ⟨s⟩) (fun m => m.molId)
        [⟨"C", "aspirin"⟩] ⟨some [⟨"N", "old"⟩], 7⟩ = ⟨some [⟨"N", "old"⟩], 7⟩ :=
  (download_hub_idempotent (fun s => some ⟨s⟩) (fun m => m.molId)
    [⟨"C", "aspirin"⟩] ⟨some [⟨"N", "old"⟩], 7⟩).1 [⟨"N", "old"⟩] rfl

/-- C5: the reference library written to local storage by
`download_drug_repurposing_hub` has no duplicate and no missing values in
its canonical-structure column: the `smiles` of every saved row is the
successful canonicalization of some downloaded row (rows whose
canonicalization failed were mapped to a missing value and dropped), each
saved row is the first occurrence of its canonical structure among the
canonicalized non-missing rows, and no successfully canonicalized
structure is lost entirely. -/
theorem hub_file_dedup_invariant (parse : String → Option Mol)
    (toSmiles : Mol → String) (remote : List HubRow) (s : FsState)
    (out : List HubRow) (hnone : s.hubFile = none)
    (hout : (download_drug_repurposing_hub parse toSmiles remote s).hubFile =
      some out) :
    ((out.map (fun r => r.smiles)).Nodup) ∧
    (∀ r ∈ out, ∃ x ∈ remote,
      canon_smiles parse toSmiles x.smiles = some r.smiles) ∧
    (∀ r ∈ out,
      ((hubNonMissing parse toSmiles remote).filter
        (fun x => x.smiles == r.smiles)).head? = some r) ∧
    (∀ c ∈ (hubNonMissing parse toSmiles remote).map (fun r => r.smiles),
      c ∈ out.map (fun r => r.smiles)) := by
  have hout2 : out = processHub parse toSmiles remote := by
    rw [download_drug_repurposing_hub, hnone] at hout
    exact (Option.some.inj hout).symm
  rw [hout2]
  simp only [processHub]
  refine ⟨?_, ?_, ?_, ?_⟩
  · exact dropLaterDups_nodup (fun r : HubRow => r.smiles)
      (hubNonMissing parse toSmiles remote) []
  · intro r hr
    have hhead := (dropLaterDups_spec (fun r : HubRow => r.smiles)
      (hubNonMissing parse toSmiles remote) [] r hr).2
    have hmem : r ∈ (hubNonMissing parse toSmiles remote).filter
        (fun x => x.smiles == r.smiles) := by
      cases hf : (hubNonMissing parse toSmiles remote).filter
          (fun x => x.smiles == r.smiles) with
      | nil => rw [hf] at hhead; simp at hhead
      | cons y ys =>
        rw [hf] at hhead
        simp only [List.head?_cons, Option.some.injEq] at hhead
        rw [hhead]
        exact List.mem_cons_self r ys
    exact mem_hubNonMissing parse toSmiles remote r
      (List.mem_of_mem_filter hmem)
  · intro r hr
    exact (dropLaterDups_spec (fun r : HubRow => r.smiles)
      (hubNonMissing parse toSmiles remote) [] r hr).2
  · intro c hc
    exact (dropLaterDups_mem_map_key (fun r : HubRow => r.smiles)
      (hubNonMissing parse toSmiles remote) [] c).mpr ⟨hc, by simp⟩

/-- The black boxes and raw table used for the reference-library witness:
the SMILES string `"bad"` fails to parse, everything else parses and
canonicalizes to itself; two raw rows share the canonical structure
`"x"`. -/
def sampleHubParse : String → Option Mol :=
  fun s => if s == "bad" then none else some ⟨s⟩

def sampleHubToSmiles : Mol → String :=
  fun m => m.molId

def sampleHubRaw : List HubRow :=
  [⟨"x", "m1"⟩, ⟨"bad", "m2"⟩, ⟨"x", "m3"⟩]

theorem hub_file_dedup_invariant_witness :
    ((([⟨"x", "m1"⟩] : List HubRow)).map (fun r => r.smiles)).Nodup ∧
    (∀ r ∈ ([⟨"x", "m1"⟩] : List HubRow), ∃ x ∈ sampleHubRaw,
      canon_smiles sampleHubParse sampleHubToSmiles x.smiles = some r.smiles) ∧
    (∀ r ∈ ([⟨"x", "m1"⟩] : List HubRow),
      ((hubNonMissing sampleHubParse sampleHubToSmiles sampleHubRaw).filter
        (fun x => x.smiles == r.smiles)).head? = some r) ∧
    (∀ c ∈ (hubNonMissing sampleHubParse sampleHubToSmiles sampleHubRaw).map
        (fun r => r.smiles),
      c ∈ ([⟨"x", "m1"⟩] : List HubRow).map (fun r => r.smiles)) :=
  hub_file_dedup_invariant sampleHubParse sampleHubToSmiles sampleHubRaw
    ⟨none, 0⟩ [⟨"x", "m1"⟩] rfl (by
      simp +decide [download_drug_repurposing_hub, processHub, hubNonMissing,
        dropLaterDups, canon_smiles, sampleHubParse, sampleHubToSmiles,
        sampleHubRaw])

theorem frameColumns_ne_nil (recs : List ActivityRow) (h : recs ≠ []) :
    frameColumns recs = ["molecule_chembl_id", "standard_value"] := by
  cases recs with
  | nil => exact absurd rfl h
  | cons a as => rfl

/-- C6: whenever `get_target_activity` returns a table, that table is the
projection of the first 100 matching activity records: it has at most 100
rows, and when fewer than 100 records match it holds all of them. -/
theorem get_target_activity_cap (db : List ChemblActivity)
    (chembl_id : String) (rows : List ActivityRow)
    (hok : get_target_activity db chembl_id = Except.ok rows) :
    rows.length ≤ 100 ∧
    rows = ((activityFilter db chembl_id).take 100).map onlyFields ∧
    ((activityFilter db chembl_id).length < 100 →
      rows = (activityFilter db chembl_id).map onlyFields) := by
  simp only [get_target_activity] at hok
  split at hok
  · have hrows : rows = ((activityFilter db chembl_id).take 100).map onlyFields :=
      (Except.ok.inj hok).symm
    refine ⟨?_, hrows, ?_⟩
    · rw [hrows]
      simp only [List.length_map, List.length_take]
      exact Nat.min_le_left _ _
    · intro hlt
      rw [hrows, List.take_of_length_le (le_of_lt hlt)]
  · exact absurd hok (by simp)

/-- The remote activity store used by the fetcher witnesses: one record
matches target `T1` with the fixed filter criteria; the others fail the
assay-type filter or belong to another target. No record matches `T0`. -/
def sampleDb : List ChemblActivity :=
  [⟨"T1", "IC50", "=", "nM", "m1", some 10⟩,
    ⟨"T1", "Ki", "=", "nM", "m2", some 5⟩,
    ⟨"T2", "IC50", "=", "nM", "m3", some 7⟩]

theorem get_target_activity_cap_witness :
    ([(⟨"m1", some 10⟩ : ActivityRow)]).length ≤ 100 ∧
    [(⟨"m1", some 10⟩ : ActivityRow)] =
      ((activityFilter sampleDb "T1").take 100).map onlyFields ∧
    ((activityFilter sampleDb "T1").length < 100 →
      [(⟨"m1", some 10⟩ : ActivityRow)] =
        (activityFilter sampleDb "T1").map onlyFields) :=
  get_target_activity_cap sampleDb "T1" [⟨"m1", some 10⟩] (by rfl)

/-- C9: `get_target_activity` fails with a missing-column lookup error
exactly when no activity record matches the target with the fixed filter
criteria: the frame built from the empty record list has no columns, so
selecting the molecule-identifier and potency columns raises instead of
returning an empty table. -/
theorem get_target_activity_empty_key_error (db : List ChemblActivity)
    (chembl_id : String) :
    get_target_activity db chembl_id = Except.error PyError.keyError ↔
      activityFilter db chembl_id = [] := by
  simp only [get_target_activity]
  cases hf : activityFilter db chembl_id with
  | nil => simp [frameColumns]
  | cons a as =>
    have hne : (((a :: as).take 100).map onlyFields) ≠ [] := by
      intro h
      have h2 := congrArg List.length h
      simp only [List.length_map, List.length_take, List.length_cons,
        List.length_nil] at h2
      omega
    rw [frameColumns_ne_nil _ hne]
    simp

theorem parseAll_length (parse : String → Option Mol) :
    ∀ (l : List PredRow) (ms : List Mol), parseAll parse l = some ms →
      ms.length = l.length := by
  intro l
  induction l with
  | nil =>
    intro ms h
    simp only [parseAll, Option.some.injEq] at h
    simp [← h]
  | cons r rs ih =>
    intro ms h
    simp only [parseAll] at h
    cases hp : parse r.smiles with
    | none => rw [hp] at h; simp at h
    | some m =>
      rw [hp] at h
      cases hq : parseAll parse rs with
      | none => rw [hq] at h; simp at h
      | some ms2 =>
        rw [hq] at h
        have : m :: ms2 = ms := Option.some.inj h
        rw [← this]
        simp [ih ms2 hq]

theorem parseAll_eq_none_iff (parse : String → Option Mol)
    (l : List PredRow) :
    parseAll parse l = none ↔ ∃ r ∈ l, parse r.smiles = none := by
  induction l with
  | nil => simp [parseAll]
  | cons r rs ih =>
    cases hp : parse r.smiles with
    | none =>
      simp only [parseAll, hp]
      exact iff_of_true trivial ⟨r, List.mem_cons_self r rs, hp⟩
    | some m =>
      cases hq : parseAll parse rs with
      | none =>
        simp only [parseAll, hp, hq]
        refine iff_of_true trivial ?_
        obtain ⟨x, hx, hpx⟩ := ih.mp hq
        exact ⟨x, List.mem_cons_of_mem r hx, hpx⟩
      | some ms =>
        simp only [parseAll, hp, hq]
        refine iff_of_false (by simp) ?_
        rintro ⟨x, hx, hpx⟩
        rcases List.mem_cons.mp hx with rfl | hx2
        · rw [hp] at hpx
          simp at hpx
        · have h2 := ih.mpr ⟨x, hx2, hpx⟩
          rw [hq] at h2
          simp at h2

/-- C7: for a predictions file with at least 9 rows, whenever the
visualizer renders a grid, the selected rows are the top 9 of a
descending sort of the whole file by score: exactly 9 rows, sorted
descending, every unselected row scoring no higher than every selected
row; the grid holds one parsed molecule per selected row, the
two-decimal-formatted score as each legend, and 3 molecules per row. -/
theorem visualize_top_predictions_ranking (parse : String → Option Mol)
    (preds : List PredRow) (img : GridImage)
    (h9 : 9 ≤ preds.length)
    (hok : visualize_top_predictions parse preds = Except.ok img) :
    (sortByScoreDesc preds).Perm preds ∧
    List.Sorted (fun a b : PredRow => b.activity ≤ a.activity)
      (sortByScoreDesc preds) ∧
    (topRows preds).length = 9 ∧
    (∀ p ∈ (sortByScoreDesc preds).drop 9, ∀ t ∈ topRows preds,
      p.activity ≤ t.activity) ∧
    parseAll parse (topRows preds) = some img.mols ∧
    img.mols.length = 9 ∧
    img.legends = (topRows preds).map (fun r => fmt2 r.activity) ∧
    img.molsPerRow = 3 := by
  simp only [visualize_top_predictions] at hok
  cases hq : parseAll parse (topRows preds) with
  | none => rw [hq] at hok; simp at hok
  | some ms =>
    rw [hq] at hok
    have himg : img = ⟨ms, (topRows preds).map (fun r => fmt2 r.activity), 3⟩ :=
      (Except.ok.inj hok).symm
    have hsorted : List.Sorted (fun a b : PredRow => b.activity ≤ a.activity)
        (sortByScoreDesc preds) :=
      List.sorted_insertionSort _ preds
    have hlen : (topRows preds).length = 9 := by
      simp only [topRows, List.length_take, List.length_insertionSort,
        sortByScoreDesc]
      omega
    refine ⟨List.perm_insertionSort _ preds, hsorted, hlen, ?_, ?_, ?_, ?_, ?_⟩
    · intro p hp t ht
      exact hsorted.rel_of_mem_take_of_mem_drop ht hp
    · simp [himg, hq]
    · rw [himg]
      have := parseAll_length parse (topRows preds) ms hq
      simpa [this] using hlen
    · rw [himg]
    · rw [himg]

/-- The sample predictions file (10 rows, distinct integer scores, given
out of order) and the all-succeeding parser used by the visualizer
witness. -/
def samplePreds : List PredRow :=
  [⟨"a", 3⟩, ⟨"b", 10⟩, ⟨"c", 1⟩, ⟨"d", 7⟩, ⟨"e", 9⟩, ⟨"f", 2⟩, ⟨"g", 8⟩,
    ⟨"h", 5⟩, ⟨"i", 6⟩, ⟨"j", 4⟩]

def sampleParse : String → Option Mol :=
  fun s => some ⟨s⟩

def sampleTop : List PredRow :=
  [⟨"b", 10⟩, ⟨"e", 9⟩, ⟨"g", 8⟩, ⟨"d", 7⟩, ⟨"i", 6⟩, ⟨"h", 5⟩, ⟨"j", 4⟩,
    ⟨"a", 3⟩, ⟨"f", 2⟩]

def sampleImg : GridImage :=
  ⟨[⟨"b"⟩, ⟨"e"⟩, ⟨"g"⟩, ⟨"d"⟩, ⟨"i"⟩, ⟨"h"⟩, ⟨"j"⟩, ⟨"a"⟩, ⟨"f"⟩],
    sampleTop.map (fun r => fmt2 r.activity), 3⟩

theorem visualize_top_predictions_ranking_witness :
    (sortByScoreDesc samplePreds).Perm samplePreds ∧
    List.Sorted (fun a b : PredRow => b.activity ≤ a.activity)
      (sortByScoreDesc samplePreds) ∧
    (topRows samplePreds).length = 9 ∧
    (∀ p ∈ (sortByScoreDesc samplePreds).drop 9, ∀ t ∈ topRows samplePreds,
      p.activity ≤ t.activity) ∧
    parseAll sampleParse (topRows samplePreds) = some sampleImg.mols ∧
    sampleImg.mols.length = 9 ∧
    sampleImg.legends = (topRows samplePreds).map (fun r => fmt2 r.activity) ∧
    sampleImg.molsPerRow = 3 :=
  visualize_top_predictions_ranking sampleParse samplePreds sampleImg
    (by simp [samplePreds])
    (by simp +decide [visualize_top_predictions, topRows, sortByScoreDesc,
      List.insertionSort, List.orderedInsert, parseAll, samplePreds,
      sampleParse, sampleImg, sampleTop])

/-- C8 counterexample: a predictions file with a single row — fewer than
9 valid structures — whose structure string parses renders a one-entry
grid successfully instead of failing, so "fails whenever the predictions
file contains fewer than 9 valid structures" is false. -/
theorem visualize_few_valid_ok_cex :
    ([(⟨"C", 1⟩ : PredRow)].length < 9) ∧
    visualize_top_predictions sampleParse [⟨"C", 1⟩] =
      Except.ok ⟨[⟨"C"⟩], [fmt2 1], 3⟩ := by
  constructor
  · simp
  · simp +decide [visualize_top_predictions, topRows, sortByScoreDesc,
      List.insertionSort, List.orderedInsert, parseAll, sampleParse]

/-- C8 (amended): the Result Visualizer fails exactly when some selected
row — among the top min(9, N) rows by score — has a structure string that
fails to parse, and that failure is not handled locally (the error
escapes). A predictions file with fewer than 9 rows whose selected
structures all parse does not fail; it renders a smaller grid. -/
theorem visualize_error_iff_parse_failure (parse : String → Option Mol)
    (preds : List PredRow) :
    (∃ e, visualize_top_predictions parse preds = Except.error e) ↔
      ∃ r ∈ topRows preds, parse r.smiles = none := by
  simp only [visualize_top_predictions]
  cases hq : parseAll parse (topRows preds) with
  | none =>
    exact iff_of_true ⟨PyError.molIsNone, rfl⟩
      ((parseAll_eq_none_iff parse _).mp hq)
  | some ms =>
    refine iff_of_false ?_ ?_
    · rintro ⟨e, he⟩
      simp at he
    · intro hex
      have h2 := (parseAll_eq_none_iff parse (topRows preds)).mpr hex
      rw [hq] at h2
      simp at h2
